import Mathlib

/-!
Verification of the Browser-Automation-Suite court-records scrapers.

This file gives a shallow embedding of the pure data-manipulation logic of
the three scrapers (the North Carolina scraper, the New York court scraper
and the New York attorney-contact scraper) and proves or refutes the frozen
claims about them.  Browser actions, HTTP requests and file writes are
modelled by oracle functions (the payload a request would return, whether a
download URL succeeds), while every transformation the Python code performs
on the fetched data is translated function by function.
-/

/-! ## Python string primitives

The scrapers rely on `str.upper`, `str.strip`, `str.split`, `str.replace`,
`in` (substring test), `", ".join` and `f"{n:02d}"`.  These are modelled by
structural recursion over the underlying character list so that all
evaluations reduce in the kernel.
-/

/-- Whitespace characters recognised by `str.strip` / no-argument `str.split`
(the subset that can occur in the scraped strings). -/
def isSpaceChar (c : Char) : Bool :=
  (c = ' ') || (c = '\t') || (c = '\n') || (c = '\r')

/-- Python `s.upper()` (ASCII). -/
def pyUpper (s : String) : String := ⟨s.data.map Char.toUpper⟩

/-- Python `s.strip()`. -/
def pyStrip (s : String) : String :=
  ⟨((s.data.dropWhile isSpaceChar).reverse.dropWhile isSpaceChar).reverse⟩

/-- Helper for splitting on a single space, keeping empty fields
(Python `s.split(" ")`). -/
def splitSpAux : List Char → List Char → List String
  | [], acc => [⟨acc.reverse⟩]
  | c :: cs, acc =>
    if c = ' ' then ⟨acc.reverse⟩ :: splitSpAux cs [] else splitSpAux cs (c :: acc)

/-- Python `s.split(" ")`. -/
def pySplitSpace (s : String) : List String := splitSpAux s.data []

/-- Helper for whitespace splitting, producing raw fields. -/
def splitWsAux : List Char → List Char → List String
  | [], acc => [⟨acc.reverse⟩]
  | c :: cs, acc =>
    if isSpaceChar c then ⟨acc.reverse⟩ :: splitWsAux cs [] else splitWsAux cs (c :: acc)

/-- Python no-argument `s.split()`: whitespace runs separate tokens and
empty tokens are dropped. -/
def pySplit (s : String) : List String :=
  (splitWsAux s.data []).filter (fun t => t != "")

/-- Boolean test that `pat` occurs at the head of a character list. -/
def startsWithL : List Char → List Char → Bool
  | [], _ => true
  | _ :: _, [] => false
  | p :: ps, c :: cs => p = c && startsWithL ps cs

/-- Fuel-indexed substring replacement over character lists. -/
def replFuel (pat rep : List Char) : Nat → List Char → List Char
  | _, [] => []
  | 0, l => l
  | fuel+1, c :: cs =>
    if startsWithL pat (c :: cs) then
      rep ++ replFuel pat rep fuel (cs.drop (pat.length - 1))
    else
      c :: replFuel pat rep fuel cs

/-- Python `s.replace(pat, rep)` (for a non-empty pattern, the only use in
this code base). -/
def pyReplace (s pat rep : String) : String :=
  ⟨replFuel pat.data rep.data s.data.length s.data⟩

/-- Helper: does `pat` occur anywhere in the character list. -/
def containsL (pat : List Char) : List Char → Bool
  | [] => startsWithL pat []
  | c :: cs => startsWithL pat (c :: cs) || containsL pat cs

/-- Python `pat in s`. -/
def pyContains (s pat : String) : Bool := containsL pat.data s.data

/-- Python `sep.join(parts)`. -/
def joinSep (sep : String) : List String → String
  | [] => ""
  | [x] => x
  | x :: xs => x ++ sep ++ joinSep sep xs

/-- Python `f"{n:02d}"` for a natural number. -/
def pad2 (n : Nat) : String := if n < 10 then "0" ++ toString n else toString n

/-! ## New York attorney-contact scraper
(`NewYork-Court-Records/AttorneyContactScraper/ny_attorney_details_scraper.py`)
-/

/-- The suffix/prefix tokens stripped from attorney names in `run`. -/
def suffixes_and_prefixes : List String :=
  ["JR", "SR", "II", "III", "IV", "V", "ESQ", "ESQUIRE",
   "VAN", "DE", "DEL", "DI", "LA", "ST", "VON"]

/-- Name cleaning in `run`: the `"O Connor" -> "O'Connor"` substitution,
then `attorney.split(" ")` filtered to the non-blank tokens whose uppercase
form is not a designated suffix/prefix. -/
def cleanedName (attorney : String) : List String :=
  let attorney :=
    if pyContains attorney "O Connor" then pyReplace attorney "O Connor" "O'Connor"
    else attorney
  (pySplitSpace attorney).filter
    (fun p => pyStrip p != "" && !(suffixes_and_prefixes.contains (pyUpper p)))

/-- The three name-form fields, each `None` until assigned. -/
structure NameParts where
  first : Option String
  middle : Option String
  last : Option String
deriving DecidableEq, Repr

/-- Positional assignment in `run`: two cleaned tokens give first/last,
three or four give first/middle/last (the fourth token is dropped); any
other count leaves every field `None`. -/
def assignNameParts (cleaned : List String) : NameParts :=
  let p0 : NameParts := ⟨none, none, none⟩
  let p1 :=
    if cleaned.length = 2 then
      { p0 with first := cleaned[0]?, last := cleaned[1]? }
    else p0
  if cleaned.length = 3 ∨ cleaned.length = 4 then
    { p1 with first := cleaned[0]?, middle := cleaned[1]?, last := cleaned[2]? }
  else p1

/-- Python `set(a) == set(b)` on token lists. -/
def tokenSetEq (a b : List String) : Bool :=
  a.all (fun x => b.contains x) && b.all (fun x => a.contains x)

/-- Token set of a candidate result link: uppercase, commas replaced by
spaces, whitespace split. -/
def linkTokens (linkText : String) : List String :=
  pySplit (pyReplace (pyUpper linkText) "," " ")

/-- The `for link in links` scan in `run`: index of the first candidate
whose token set equals the query's. -/
def findTargetLink (qset : List String) : List String → Option Nat
  | [] => none
  | l :: ls =>
    if tokenSetEq qset (linkTokens l) then some 0
    else (findTargetLink qset ls).map (· + 1)

/-- Result-link selection in `run`: the first exact token-set match is
clicked, otherwise the first link is clicked and the fallback is logged.
Returns the clicked index paired with whether the fallback warning fired;
`none` when there are no links at all (the code would raise there). -/
def selectResultLink (attorney : String) (links : List String) : Option (Nat × Bool) :=
  match findTargetLink (pySplit (pyUpper attorney)) links with
  | some i => some (i, false)
  | none => if links.isEmpty then none else some (0, true)

/-- A per-item failure raised by the portal interaction, with a flag telling
whether it is a `requests.RequestException` (the only class some handlers
catch). -/
structure PyErr where
  requestExc : Bool
deriving DecidableEq, Repr

/-- The record built by `extract_attorney_details` (absent fields become
empty strings). -/
structure AttorneyDetails where
  estateAttorney : String
  email : String
  address : String
  phone : String
deriving DecidableEq, Repr

/-- The per-attorney loop of `run`: each iteration is wrapped in a broad
`try`/`except` that logs and continues, so the surviving results are the
successful iterations in order.  `process` is the oracle for one whole
iteration body (search, click, extraction). -/
def nyAttorneyLoop (process : String → Except PyErr AttorneyDetails)
    (attorneys : List String) : List AttorneyDetails :=
  attorneys.filterMap (fun a => (process a).toOption)

/-- CSV writes performed by the per-attorney loop of `run`: on each
successful iteration `scraped_attorney` holds just that iteration's record
and `save_to_csv(scraped_attorney)` is called inside the loop, so each
success contributes one single-record write. -/
def nyAttorneyCsvWrites (process : String → Except PyErr AttorneyDetails)
    (attorneys : List String) : List (List AttorneyDetails) :=
  attorneys.filterMap (fun a => (process a).toOption.map (fun d => [d]))

/-! ## New York court scraper (`NewYork-Court-Records/newyork_court_scraper.py`) -/

/-- A filing record assembled in `get_attorney_info`; every field may be
`None` when the page lacks it. -/
structure FilingRecord where
  county : Option String
  fileNumber : Option String
  proceedingType : Option String
  estateAttorney : Option String
  estateAttorneyFirm : Option String
deriving DecidableEq, Repr

/-- One file-link iteration in the court scraper's `get_attorney_info`:
the click and the field extraction each sit in their own `try`/`except`
that logs and continues, so a failure in either yields no record. -/
def processFileLink (click : Except PyErr Unit)
    (extract : Except PyErr FilingRecord) : Option FilingRecord :=
  match click with
  | Except.error _ => none
  | Except.ok _ =>
    match extract with
    | Except.error _ => none
    | Except.ok r => some r

/-- The per-link loop of the court scraper's `get_attorney_info` over the
result-table links, each link supplying its click and extraction outcomes. -/
def nyCourtLinkLoop
    (links : List (Except PyErr Unit × Except PyErr FilingRecord)) :
    List FilingRecord :=
  links.filterMap (fun l => processFileLink l.1 l.2)

/-- CSV writes of one (proceeding type, county) scope in the court
scraper's `run`: records of all twelve months accumulate in one
`scraped_data` list and `save_to_csv` runs once after the month loop, and
only when the list is non-empty. -/
def nyCourtScopeWrites (monthRecords : List (List FilingRecord)) :
    List (List FilingRecord) :=
  if monthRecords.flatten = [] then [] else [monthRecords.flatten]

/-! ## North Carolina scraper
(`NorthCarolina-Court-Records/northcarolina_scraper.py`)
-/

/-- Portal base URL from `NorthCarolinaScraper.__init__`. -/
def nc_base_url : String := "https://portal-nc.tylertech.cloud"

/-- One address object of an attorney in the Parties API payload; absent
JSON fields default to the empty string as in the `address.get(..., "")`
calls. -/
structure PyAddress where
  addressLine1 : String
  addressLine2 : String
  addressLine3 : String
  addressLine4 : String
  city : String
  state : String
  postalCode : String
deriving DecidableEq, Repr

/-- One `CasePartyAttorneys` entry: a formatted name (possibly absent) and
its address objects. -/
structure CasePartyAttorney where
  formattedName : Option String
  addresses : List PyAddress
deriving DecidableEq, Repr

/-- The dictionary built for one attorney in `get_attorney_info`; the
Python value of `"AttorneyAddress"` is the list of formatted strings, or
`""` when that list is empty (modelled by the empty list). -/
structure AttorneyInfo where
  name : Option String
  addresses : List String
deriving DecidableEq, Repr

/-- Address formatting in `get_attorney_info`: the location block is built
from city/state/postal whenever at least one of them is non-empty, and the
four address lines plus the block are comma-joined after dropping empty
entries. -/
def formatAddress (a : PyAddress) : String :=
  let location_parts := [a.city, a.state, a.postalCode].filter (fun p => p != "")
  let location_block :=
    if location_parts != [] then
      joinSep ", " [a.city, joinSep " " [a.state, a.postalCode]]
    else ""
  let full_address_components :=
    [a.addressLine1, a.addressLine2, a.addressLine3, a.addressLine4, location_block]
  joinSep ", " (full_address_components.filter (fun p => p != ""))

/-- The attorney dictionary built from one `CasePartyAttorneys` entry. -/
def attorneyEntry (info : CasePartyAttorney) : AttorneyInfo :=
  ⟨info.formattedName, info.addresses.map formatAddress⟩

/-- The name-based dedup guard in `get_attorney_info`: an entry is appended
only when no collected entry has the same `AttorneyName`. -/
def dedupStep (acc : List AttorneyInfo) (e : AttorneyInfo) : List AttorneyInfo :=
  if acc.any (fun k => decide (k.name = e.name)) then acc else acc ++ [e]

/-- One party iteration of `get_attorney_info`: the running state is
`(attorney_info_len, attorneys)`; a non-empty `CasePartyAttorneys` list
longer than the running length updates the length and appends its entries
through the dedup guard — without clearing what was already collected. -/
def gaiStep (st : Nat × List AttorneyInfo) (attorney_info : List CasePartyAttorney) :
    Nat × List AttorneyInfo :=
  if attorney_info.isEmpty then st
  else if attorney_info.length > st.1 then
    (attorney_info.length,
     attorney_info.foldl (fun acc info => dedupStep acc (attorneyEntry info)) st.2)
  else st

/-- `get_attorney_info` on a successfully fetched Parties payload, with
each party abstracted to its `CasePartyAttorneys` list. -/
def get_attorney_info (all_parties : List (List CasePartyAttorney)) :
    List AttorneyInfo :=
  (all_parties.foldl gaiStep (0, [])).2

/-- One `ParentLinks` entry of a document. -/
structure ParentLink where
  nodeId : String
  parentId : String
deriving DecidableEq, Repr

/-- One document of a case event, with the fields `get_pdf_files` reads
from it (the fragment id stands for
`DocumentVersions[0].DocumentFragments[0].DocumentFragmentID`). -/
structure CaseDocument where
  docFragmentId : String
  docTypeId : String
  docType : String
  docName : String
  parentLinks : List ParentLink
deriving DecidableEq, Repr

/-- One case event: `Event.TypeId.Description` and `Event.Documents`. -/
structure CaseEvent where
  typeDesc : String
  documents : List CaseDocument
deriving DecidableEq, Repr

/-- The download URL `get_pdf_files` constructs for one parent link
(`event_name` is the type description after the `/` substitution). -/
def mkPdfUrl (doc : CaseDocument) (case_no : String) (link : ParentLink)
    (event_name : String) : String :=
  nc_base_url ++ "/Portal//DocumentViewer/DisplayDoc?documentID=" ++ doc.docFragmentId
    ++ "&caseNum=" ++ case_no ++ "&locationId=" ++ link.nodeId
    ++ "&caseId=" ++ link.parentId ++ "&docTypeId=" ++ doc.docTypeId
    ++ "&isVersionId=false&docType=" ++ doc.docType ++ "&docName=" ++ doc.docName
    ++ "&eventName=" ++ event_name

/-- The `for link in parent_links` loop: each link's URL is attempted in
order until one download succeeds; `found0` is the value `pdf_found` had on
entry (it survives only when there is no link to try).  Returns the final
`pdf_found` and the attempted URLs. -/
def tryParentLinks (dl : String → Bool) (doc : CaseDocument) (case_no event_name : String)
    (found0 : Bool) : List ParentLink → Bool × List String
  | [] => (found0, [])
  | link :: rest =>
    let url := mkPdfUrl doc case_no link event_name
    if dl url then (true, [url])
    else
      let r := tryParentLinks dl doc case_no event_name false rest
      (r.1, url :: r.2)

/-- State threaded through the event scan of `get_pdf_files`. -/
structure PdfScanState where
  found : Bool
  filesDownloaded : List String
  attempts : List String
deriving DecidableEq, Repr

/-- The sanitized file name: `/` replaced by `-Or-`, spaces by `_`, then
stripped. -/
def eventFileName (typeDesc : String) : String :=
  pyStrip (pyReplace (pyReplace typeDesc "/" "-Or-") " " "_")

/-- One event iteration of `get_pdf_files`: only events whose description
contains `"Bond"` and that carry at least one document are considered;
their first document is used; a file name already recorded for this case is
skipped; otherwise the parent links are tried in order. -/
def pdfStep (dl : String → Bool) (case_no : String) (st : PdfScanState)
    (ce : CaseEvent) : PdfScanState :=
  if pyContains ce.typeDesc "Bond" then
    match ce.documents with
    | [] => st
    | doc :: _ =>
      let event_name := pyReplace ce.typeDesc "/" "-Or-"
      let fname := pyStrip (pyReplace event_name " " "_")
      if st.filesDownloaded.contains fname then st
      else
        let r := tryParentLinks dl doc case_no event_name st.found doc.parentLinks
        { found := r.1,
          filesDownloaded := st.filesDownloaded ++ [fname],
          attempts := st.attempts ++ r.2 }
  else st

/-- `get_pdf_files` on a successfully fetched CaseEvents payload: the final
`pdf_found` flag, the per-case file-name dedup list and the attempted
download URLs. -/
def get_pdf_files (dl : String → Bool) (case_no : String)
    (events : List CaseEvent) : PdfScanState :=
  events.foldl (pdfStep dl case_no) ⟨false, [], []⟩

/-- The record `scrape_cases` appends for one kept case. -/
structure CaseRecord where
  caseNumber : String
  caseType : Option String
  attorneys : List AttorneyInfo
  pdfFile : String
deriving DecidableEq, Repr

/-- Decidable equality for `Except`, needed to evaluate the exception
models on concrete inputs. -/
instance exceptDecEq {ε α : Type} [DecidableEq ε] [DecidableEq α] :
    DecidableEq (Except ε α) := fun a b =>
  match a, b with
  | Except.ok x, Except.ok y =>
    match decEq x y with
    | isTrue h => isTrue (by rw [h])
    | isFalse h => isFalse (by intro hh; injection hh; contradiction)
  | Except.error x, Except.error y =>
    match decEq x y with
    | isTrue h => isTrue (by rw [h])
    | isFalse h => isFalse (by intro hh; injection hh; contradiction)
  | Except.ok _, Except.error _ => isFalse (by intro hh; injection hh)
  | Except.error _, Except.ok _ => isFalse (by intro hh; injection hh)

/-- The three API responses `scrape_cases` consumes for one case row,
each either a payload or a raised error. -/
structure CaseFetch where
  caseNo : String
  typeResp : Except PyErr (Option String)
  partiesResp : Except PyErr (List (List CasePartyAttorney))
  eventsResp : Except PyErr (List CaseEvent)
deriving DecidableEq

/-- The case type that `scrape_cases` excludes. -/
def smallEstateDesc : String := "Decedents' Estate - Small Estate"

/-- Whether a case row will be recognised as a small-estate case (its
case-type fetch succeeds with exactly the excluded description). -/
def isSmallEstateCase (c : CaseFetch) : Bool :=
  match c.typeResp with
  | Except.ok (some t) => t == smallEstateDesc
  | _ => false

/-- `get_attorney_info` including its `try`/`except`: only a
`requests.RequestException` is caught (yielding an empty attorney list);
any other error propagates. -/
def getAttorneyInfoE (resp : Except PyErr (List (List CasePartyAttorney))) :
    Except PyErr (List AttorneyInfo) :=
  match resp with
  | Except.ok parties => Except.ok (get_attorney_info parties)
  | Except.error e => if e.requestExc then Except.ok [] else Except.error e

/-- `get_pdf_files` including its `try`/`except`: only a
`requests.RequestException` is caught (yielding `False`); any other error
propagates. -/
def getPdfFilesE (dl : String → Bool) (case_no : String)
    (resp : Except PyErr (List CaseEvent)) : Except PyErr Bool :=
  match resp with
  | Except.ok events => Except.ok (get_pdf_files dl case_no events).found
  | Except.error e => if e.requestExc then Except.ok false else Except.error e

/-- Outcome of one iteration of the `for case in all_cases` loop of
`scrape_cases`: whether the Parties and CaseEvents APIs were reached, and
the iteration's result — an error (nothing in the loop body catches the
case-type fetch), a skip, or a record. -/
structure CaseOutcome where
  calledParties : Bool
  calledEvents : Bool
  result : Except PyErr (Option CaseRecord)
deriving DecidableEq

/-- One iteration of `scrape_cases`: fetch the case type (errors
propagate), skip small-estate cases before any further lookup, then run the
attorney and PDF lookups and build the record. -/
def processCase (dl : String → Bool) (c : CaseFetch) : CaseOutcome :=
  match c.typeResp with
  | Except.error e => ⟨false, false, Except.error e⟩
  | Except.ok t =>
    if t = some smallEstateDesc then ⟨false, false, Except.ok none⟩
    else
      match getAttorneyInfoE c.partiesResp with
      | Except.error e => ⟨true, false, Except.error e⟩
      | Except.ok attorneys =>
        match getPdfFilesE dl c.caseNo c.eventsResp with
        | Except.error e => ⟨true, true, Except.error e⟩
        | Except.ok pdf =>
          ⟨true, true,
           Except.ok (some ⟨c.caseNo, t, attorneys, if pdf then "Found" else "Not Found"⟩)⟩

/-- The `scrape_cases` loop: the loop body has no per-case guard, so the
first propagating error aborts the whole loop; skipped cases contribute
nothing; kept cases append their record in order. -/
def scrapeCases (dl : String → Bool) : List CaseFetch → Except PyErr (List CaseRecord)
  | [] => Except.ok []
  | c :: cs =>
    match (processCase dl c).result with
    | Except.error e => Except.error e
    | Except.ok none => scrapeCases dl cs
    | Except.ok (some r) => (scrapeCases dl cs).map (fun rs => r :: rs)

/-- A CSV cell as Python's `csv.writer` receives it: a string, a list of
strings (an attorney's address list), or `None`. -/
inductive Cell where
  | s (v : String)
  | lst (v : List String)
  | null
deriving DecidableEq, Repr

/-- The `AttorneyName` value placed in a row. -/
def cellOfName : Option String → Cell
  | some v => Cell.s v
  | none => Cell.null

/-- The `AttorneyAddress` value placed in a row (the empty address list was
stored as `""`). -/
def cellOfAddresses : List String → Cell
  | [] => Cell.s ""
  | l => Cell.lst l

/-- The `Case Type` value placed in a row. -/
def cellOfCaseType : Option String → Cell
  | some v => Cell.s v
  | none => Cell.null

/-- `_get_max_attorneys_in_batch`. -/
def maxAttorneysInBatch (scraped_data : List CaseRecord) : Nat :=
  scraped_data.foldl (fun m item => max m item.attorneys.length) 0

/-- The dynamically generated attorney header pairs of `save_to_csv`. -/
def attorneyHeaders (max_attorneys : Nat) : List String :=
  ((List.range max_attorneys).map
    (fun i => ["Attorney Name " ++ toString (i + 1),
               "Attorney Address " ++ toString (i + 1)])).flatten

/-- One data row of `save_to_csv`: base fields, the flattened
name/address pairs, then padding up to `required_attorney_cols`. -/
def csvRowOf (required_attorney_cols : Nat) (item : CaseRecord) : List Cell :=
  let flattened_attorneys :=
    (item.attorneys.map (fun a => [cellOfName a.name, cellOfAddresses a.addresses])).flatten
  [Cell.s item.caseNumber, cellOfCaseType item.caseType, Cell.s item.pdfFile]
    ++ flattened_attorneys
    ++ List.replicate (required_attorney_cols - flattened_attorneys.length) (Cell.s "")

/-- All rows `save_to_csv` writes: the header row followed by one row per
record. -/
def save_to_csv_rows (scraped_data : List CaseRecord) : List (List Cell) :=
  let max_attorneys := maxAttorneysInBatch scraped_data
  let final_headers :=
    (["Case Number", "Case Type", "PDF File"] ++ attorneyHeaders max_attorneys).map Cell.s
  final_headers :: scraped_data.map (csvRowOf (attorneyHeaders max_attorneys).length)

/-- The termination banner of the NC `run` search loop. -/
def noCasesMsg : String := "No cases match your search"

/-- The search criterion of the `k`-th iteration of the NC `run` loop. -/
def searchString (k : Nat) : String := "24E00" ++ pad2 (2 * k) ++ "*"

/-- The NC `run` search loop, driven by the banner shown for each query and
by the records each query's result grid yields (`recsOf` abstracts one
whole `scrape_cases` pass).  Returns the queries issued and the accumulated
`scraped_data`; `fuel` bounds the iterations of the unbounded `while`. -/
def ncLoop (bannerOf : String → String) (recsOf : String → List CaseRecord) :
    Nat → Nat → List String × List CaseRecord
  | 0, _ => ([], [])
  | fuel+1, record_num =>
    let q := "24E00" ++ pad2 record_num ++ "*"
    if pyContains (bannerOf q) noCasesMsg then ([q], [])
    else
      let rest := ncLoop bannerOf recsOf fuel (record_num + 2)
      (q :: rest.1, recsOf q ++ rest.2)

/-- The NC `run`: the search loop starting at record number 0, then a
single `save_to_csv(self.scraped_data)` after the loop ends.  Returns
(queries, final data, CSV writes). -/
def ncRun (bannerOf : String → String) (recsOf : String → List CaseRecord)
    (fuel : Nat) : List String × List CaseRecord × List (List CaseRecord) :=
  let r := ncLoop bannerOf recsOf fuel 0
  (r.1, r.2, [r.2])

/-! ## Specification-side definitions

These follow the wording of the amended claims and are compared with the
source-translated functions above.
-/

/-- Parties whose attorney count strictly exceeds every earlier party's
count (the running maxima of the count sequence), written independently of
the fold in `get_attorney_info`. -/
def runningMaxParties (m : Nat) : List (List CasePartyAttorney) → List (List CasePartyAttorney)
  | [] => []
  | p :: ps =>
    if p.length > m then p :: runningMaxParties p.length ps
    else runningMaxParties m ps

/-- Folding a list of entries through the name dedup guard, starting from
already-collected entries. -/
def dedupInto (acc : List AttorneyInfo) (l : List AttorneyInfo) : List AttorneyInfo :=
  l.foldl dedupStep acc

/-- Address formatting as the amended claim words it: the non-empty address
lines, followed by the verbatim `city, state zip` block whenever at least
one of city/state/postal is non-empty. -/
def formatAddressSpec (a : PyAddress) : String :=
  joinSep ", "
    (([a.addressLine1, a.addressLine2, a.addressLine3, a.addressLine4].filter
        (fun p => p != ""))
      ++ (if a.city = "" ∧ a.state = "" ∧ a.postalCode = "" then []
          else [a.city ++ ", " ++ a.state ++ " " ++ a.postalCode]))

/-- The URLs attempted from a list of candidate URLs: every failing URL in
order, stopping right after the first success. -/
def attemptsSpec (dl : String → Bool) : List String → List String
  | [] => []
  | u :: us => if dl u then [u] else u :: attemptsSpec dl us

/-- The candidate download URLs of one event: one per parent link of the
event's first document (none when the event has no document). -/
def eventUrls (case_no : String) (ce : CaseEvent) : List String :=
  match ce.documents with
  | [] => []
  | doc :: _ =>
    doc.parentLinks.map (fun link => mkPdfUrl doc case_no link (pyReplace ce.typeDesc "/" "-Or-"))

/-- The events `get_pdf_files` actually tries downloads for: every event
containing `"Bond"` with at least one document whose sanitized file name
was not already recorded, scanned left to right. -/
def bondEventsToProcess (seen : List String) : List CaseEvent → List CaseEvent
  | [] => []
  | ce :: rest =>
    if pyContains ce.typeDesc "Bond" && !ce.documents.isEmpty
        && !seen.contains (eventFileName ce.typeDesc) then
      ce :: bondEventsToProcess (seen ++ [eventFileName ce.typeDesc]) rest
    else bondEventsToProcess seen rest

/-- Successful iterations of the per-attorney loop (the records that reach
the per-record CSV write). -/
def nyAttorneySuccesses (process : String → Except PyErr AttorneyDetails)
    (attorneys : List String) : List AttorneyDetails :=
  attorneys.filterMap (fun a => (process a).toOption)

/-! ## Helper lemmas -/

/-- A successful scan of `findTargetLink` returns the first matching index. -/
theorem findTargetLink_eq_some (qset : List String) :
    ∀ (ls : List String) (i : Nat), findTargetLink qset ls = some i →
      (∃ l, ls[i]? = some l ∧ tokenSetEq qset (linkTokens l) = true)
      ∧ ∀ j l, j < i → ls[j]? = some l → tokenSetEq qset (linkTokens l) = false := by
  intro ls
  induction ls with
  | nil => intro i h; simp [findTargetLink] at h
  | cons a as ih =>
    intro i h
    by_cases hm : tokenSetEq qset (linkTokens a) = true
    · simp [findTargetLink, hm] at h
      subst h
      refine ⟨⟨a, by simp, hm⟩, ?_⟩
      intro j l hj
      omega
    · have hm' : tokenSetEq qset (linkTokens a) = false := by
        simpa using hm
      simp [findTargetLink, hm'] at h
      obtain ⟨i', hi', rfl⟩ := h
      obtain ⟨⟨l, hl, hml⟩, hprev⟩ := ih i' hi'
      refine ⟨⟨l, by simpa using hl, hml⟩, ?_⟩
      intro j l' hj hjl
      cases j with
      | zero =>
        simp at hjl
        subst hjl
        exact hm'
      | succ j' =>
        exact hprev j' l' (by omega) (by simpa using hjl)

/-- When no link matches, `findTargetLink` finds nothing. -/
theorem findTargetLink_eq_none (qset : List String) :
    ∀ ls : List String, (∀ l ∈ ls, tokenSetEq qset (linkTokens l) = false) →
      findTargetLink qset ls = none := by
  intro ls
  induction ls with
  | nil => intro _; rfl
  | cons a as ih =>
    intro h
    have ha := h a (by simp)
    simp [findTargetLink, ha]
    exact ih (fun l hl => h l (by simp [hl]))

/-! ## Claim theorems -/

/-- Claim C7: NY name normalization removes every token whose uppercase
form is in the fixed suffix/particle list, applies the `"O Connor"`
substitution first, and assigns the remaining tokens positionally (2 tokens
give first/last, 3 or 4 give first/middle/last with extras dropped); the
input `"John O Connor Jr"` yields tokens `["John", "O'Connor"]` and
`"Maria De La Cruz"` yields first `"Maria"`, last `"Cruz"`. -/
theorem claim_C7_name_normalization :
    (∀ s : String, ∀ p ∈ cleanedName s, suffixes_and_prefixes.contains (pyUpper p) = false)
    ∧ cleanedName "John O Connor Jr" = ["John", "O'Connor"]
    ∧ (∀ s : String, (cleanedName s).length = 2 →
        assignNameParts (cleanedName s) =
          ⟨(cleanedName s)[0]?, none, (cleanedName s)[1]?⟩)
    ∧ (∀ s : String, (cleanedName s).length = 3 ∨ (cleanedName s).length = 4 →
        assignNameParts (cleanedName s) =
          ⟨(cleanedName s)[0]?, (cleanedName s)[1]?, (cleanedName s)[2]?⟩)
    ∧ assignNameParts (cleanedName "Maria De La Cruz") = ⟨some "Maria", none, some "Cruz"⟩ := by
  refine ⟨?_, by decide, ?_, ?_, by decide⟩
  · intro s p hp
    unfold cleanedName at hp
    have h := (List.mem_filter.mp hp).2
    simp only [Bool.and_eq_true, Bool.not_eq_true'] at h
    exact h.2
  · intro s h2
    simp [assignNameParts, h2]
  · intro s h34
    rcases h34 with h | h <;> simp [assignNameParts, h]

/-- Claim C7 witness: the suffix token of a concrete cleaned name is
indeed outside the suffix list. -/
theorem claim_C7_witness :
    suffixes_and_prefixes.contains (pyUpper "Smith") = false :=
  claim_C7_name_normalization.1 "Bob Smith" "Smith" (by decide)

/-- Claim C6: NY result-link selection clicks the first candidate (in
document order) whose uppercased, comma-stripped token set equals the
query's token set, and falls back to the first candidate with a warning
when none matches; on candidates `{"Smith, John A", "Smith, John"}` with
query `"John Smith"` it selects `"Smith, John"`, and on the lone candidate
`"Jones, Robert B"` with query `"Robert Jones"` it selects that candidate
via the fallback. -/
theorem claim_C6_link_selection :
    (∀ (q : String) (ls : List String) (i : Nat),
        selectResultLink q ls = some (i, false) →
          (∃ l, ls[i]? = some l ∧ tokenSetEq (pySplit (pyUpper q)) (linkTokens l) = true)
          ∧ ∀ j l, j < i → ls[j]? = some l →
              tokenSetEq (pySplit (pyUpper q)) (linkTokens l) = false)
    ∧ (∀ (q : String) (ls : List String),
        (∀ l ∈ ls, tokenSetEq (pySplit (pyUpper q)) (linkTokens l) = false) →
        ls ≠ [] → selectResultLink q ls = some (0, true))
    ∧ selectResultLink "John Smith" ["Smith, John A", "Smith, John"] = some (1, false)
    ∧ selectResultLink "Robert Jones" ["Jones, Robert B"] = some (0, true) := by
  refine ⟨?_, ?_, by decide, by decide⟩
  · intro q ls i h
    unfold selectResultLink at h
    cases hf : findTargetLink (pySplit (pyUpper q)) ls with
    | some i' =>
      rw [hf] at h
      simp at h
      obtain ⟨rfl, -⟩ := h
      exact findTargetLink_eq_some _ ls i hf
    | none =>
      rw [hf] at h
      by_cases he : ls.isEmpty <;> simp [he] at h
  · intro q ls hnone hne
    unfold selectResultLink
    rw [findTargetLink_eq_none _ ls hnone]
    simp [List.isEmpty_iff, hne]

/-- Claim C6 witness: the fallback branch at the concrete single-candidate
input. -/
theorem claim_C6_witness :
    selectResultLink "Robert Jones" ["Jones, Robert B"] = some (0, true) :=
  claim_C6_link_selection.2.1 "Robert Jones" ["Jones, Robert B"] (by decide) (by decide)

/-- The dynamic attorney header block has one name and one address column
per attorney slot. -/
theorem attorneyHeaders_length (m : Nat) : (attorneyHeaders m).length = 2 * m := by
  induction m with
  | zero => rfl
  | succ n ih =>
    simp only [attorneyHeaders, List.range_succ, List.map_append, List.flatten_append] at *
    simp [ih]
    omega

/-- Flattening the per-attorney pairs yields two cells per attorney. -/
theorem flattenedAttorneys_length (l : List AttorneyInfo) :
    ((l.map fun a => [cellOfName a.name, cellOfAddresses a.addresses]).flatten).length
      = 2 * l.length := by
  induction l with
  | nil => rfl
  | cons a as ih => simp [ih]; omega

/-- The fold computing the batch maximum never drops below its
accumulator. -/
theorem foldl_max_attorneys_init_le (l : List CaseRecord) :
    ∀ i : Nat, i ≤ l.foldl (fun m item => max m item.attorneys.length) i := by
  induction l with
  | nil => intro i; exact Nat.le_refl i
  | cons a as ih =>
    intro i
    exact le_trans (Nat.le_max_left i a.attorneys.length) (ih _)

/-- Every record's attorney count is bounded by the batch maximum. -/
theorem attorneys_le_max (data : List CaseRecord) (r : CaseRecord) (hr : r ∈ data) :
    r.attorneys.length ≤ maxAttorneysInBatch data := by
  unfold maxAttorneysInBatch
  generalize 0 = i
  induction data generalizing i with
  | nil => cases hr
  | cons a as ih =>
    rcases List.mem_cons.mp hr with h | h
    · subst h
      exact le_trans (Nat.le_max_right i r.attorneys.length)
        (foldl_max_attorneys_init_le as _)
    · exact ih h _

/-- Claim C8: every row `save_to_csv` writes (header and data rows alike)
has exactly `3 + 2*M` columns where `M` is the batch-wide maximum attorney
count; the header carries `M` name/address pairs and a record with `k`
attorneys is right-padded with `2*(M-k)` empty cells; in the concrete
3-attorney/1-attorney batch the header has 3 pairs and the 1-attorney row
ends in 4 empty cells. -/
theorem claim_C8_csv_padding (data : List CaseRecord) (row : List Cell)
    (hrow : row ∈ save_to_csv_rows data) :
    row.length = 3 + 2 * maxAttorneysInBatch data
    ∧ (save_to_csv_rows data).head? =
        some ((["Case Number", "Case Type", "PDF File"]
          ++ attorneyHeaders (maxAttorneysInBatch data)).map Cell.s)
    ∧ (∀ r ∈ data,
        csvRowOf (attorneyHeaders (maxAttorneysInBatch data)).length r
          = [Cell.s r.caseNumber, cellOfCaseType r.caseType, Cell.s r.pdfFile]
            ++ (r.attorneys.map fun a => [cellOfName a.name, cellOfAddresses a.addresses]).flatten
            ++ List.replicate (2 * (maxAttorneysInBatch data - r.attorneys.length)) (Cell.s ""))
    ∧ save_to_csv_rows
        [⟨"24E001", some "T", [⟨some "A1", []⟩, ⟨some "A2", []⟩, ⟨some "A3", []⟩], "Found"⟩,
         ⟨"24E002", some "T", [⟨some "B1", []⟩], "Not Found"⟩]
        = [[Cell.s "Case Number", Cell.s "Case Type", Cell.s "PDF File",
            Cell.s "Attorney Name 1", Cell.s "Attorney Address 1",
            Cell.s "Attorney Name 2", Cell.s "Attorney Address 2",
            Cell.s "Attorney Name 3", Cell.s "Attorney Address 3"],
           [Cell.s "24E001", Cell.s "T", Cell.s "Found",
            Cell.s "A1", Cell.s "", Cell.s "A2", Cell.s "", Cell.s "A3", Cell.s ""],
           [Cell.s "24E002", Cell.s "T", Cell.s "Not Found",
            Cell.s "B1", Cell.s "", Cell.s "", Cell.s "", Cell.s "", Cell.s ""]] := by
  have hrowlen : ∀ r ∈ data,
      (csvRowOf (attorneyHeaders (maxAttorneysInBatch data)).length r).length
        = 3 + 2 * maxAttorneysInBatch data := by
    intro r hr
    have hk := attorneys_le_max data r hr
    unfold csvRowOf
    simp only [List.length_append, List.length_replicate, List.length_cons,
      List.length_nil, attorneyHeaders_length, flattenedAttorneys_length]
    omega
  refine ⟨?_, ?_, ?_, by decide⟩
  · rcases List.mem_cons.mp hrow with h | h
    · subst h
      simp [attorneyHeaders_length]
      omega
    · obtain ⟨r, hr, rfl⟩ := List.mem_map.mp h
      exact hrowlen r hr
  · simp [save_to_csv_rows]
  · intro r hr
    have hk := attorneys_le_max data r hr
    unfold csvRowOf
    have hcount : (attorneyHeaders (maxAttorneysInBatch data)).length
        - ((r.attorneys.map fun a => [cellOfName a.name, cellOfAddresses a.addresses]).flatten).length
        = 2 * (maxAttorneysInBatch data - r.attorneys.length) := by
      rw [attorneyHeaders_length, flattenedAttorneys_length]
      omega
    dsimp only
    rw [hcount]

/-- Claim C8 witness: the header row of the empty batch has the base three
columns. -/
theorem claim_C8_witness :
    ([Cell.s "Case Number", Cell.s "Case Type", Cell.s "PDF File"] : List Cell).length
      = 3 + 2 * maxAttorneysInBatch [] :=
  (claim_C8_csv_padding [] _ (by decide)).1

/-- A recognised small-estate case is skipped before any further lookup. -/
theorem processCase_small (dl : String → Bool) (c : CaseFetch)
    (h : isSmallEstateCase c = true) :
    processCase dl c = ⟨false, false, Except.ok none⟩ := by
  unfold isSmallEstateCase at h
  unfold processCase
  cases htr : c.typeResp with
  | error e => rw [htr] at h; simp at h
  | ok t =>
    rw [htr] at h
    cases t with
    | none => simp at h
    | some s =>
      simp only [beq_iff_eq] at h
      subst h
      simp

/-- Claim C9: a case whose case-type description equals exactly
`"Decedents' Estate - Small Estate"` triggers neither the Parties API nor
the CaseEvents API, yields no record, and removing all such cases from the
input leaves the output batch of `scrape_cases` unchanged. -/
theorem claim_C9_small_estate_exclusion (dl : String → Bool) (c : CaseFetch)
    (h : c.typeResp = Except.ok (some smallEstateDesc)) (cases : List CaseFetch) :
    (processCase dl c).calledParties = false
    ∧ (processCase dl c).calledEvents = false
    ∧ (processCase dl c).result = Except.ok none
    ∧ scrapeCases dl cases
        = scrapeCases dl (cases.filter (fun x => !(isSmallEstateCase x))) := by
  have hsmall : isSmallEstateCase c = true := by
    unfold isSmallEstateCase
    rw [h]
    simp
  rw [processCase_small dl c hsmall]
  refine ⟨rfl, rfl, rfl, ?_⟩
  induction cases with
  | nil => rfl
  | cons a as ih =>
    by_cases hsm : isSmallEstateCase a = true
    · rw [List.filter_cons]
      simp only [hsm, Bool.not_true, if_neg (by simp : ¬ (false = true))]
      show (match (processCase dl a).result with
            | Except.error e => Except.error e
            | Except.ok none => scrapeCases dl as
            | Except.ok (some r) => (scrapeCases dl as).map (fun rs => r :: rs))
          = scrapeCases dl (as.filter (fun x => !(isSmallEstateCase x)))
      rw [processCase_small dl a hsm]
      exact ih
    · rw [List.filter_cons]
      simp only [Bool.not_eq_true] at hsm
      simp only [hsm, Bool.not_false, if_pos rfl]
      show (match (processCase dl a).result with
            | Except.error e => Except.error e
            | Except.ok none => scrapeCases dl as
            | Except.ok (some r) => (scrapeCases dl as).map (fun rs => r :: rs))
          = (match (processCase dl a).result with
            | Except.error e => Except.error e
            | Except.ok none => scrapeCases dl (as.filter (fun x => !(isSmallEstateCase x)))
            | Except.ok (some r) =>
                (scrapeCases dl (as.filter (fun x => !(isSmallEstateCase x)))).map
                  (fun rs => r :: rs))
      cases (processCase dl a).result with
      | error e => rfl
      | ok o => cases o with
        | none => exact ih
        | some r => rw [ih]

/-- Claim C9 witness: a concrete small-estate case is fully skipped. -/
theorem claim_C9_witness :
    (processCase (fun _ => false)
      ⟨"24E000001", Except.ok (some smallEstateDesc), Except.ok [], Except.ok []⟩).result
      = Except.ok none :=
  (claim_C9_small_estate_exclusion (fun _ => false)
    ⟨"24E000001", Except.ok (some smallEstateDesc), Except.ok [], Except.ok []⟩ rfl []).2.2.1

/-- The NC search loop issues exactly the queries `searchString s`,
`searchString (s+1)`, ... up to and including the first one whose banner
matches, provided enough fuel remains. -/
theorem ncLoop_queries (bannerOf : String → String) (recsOf : String → List CaseRecord) :
    ∀ (k s fuel : Nat),
      (∀ j ∈ List.range k, pyContains (bannerOf (searchString (s + j))) noCasesMsg = false) →
      pyContains (bannerOf (searchString (s + k))) noCasesMsg = true →
      k < fuel →
      (ncLoop bannerOf recsOf fuel (2 * s)).1
        = (List.range (k + 1)).map (fun j => searchString (s + j)) := by
  intro k
  induction k with
  | zero =>
    intro s fuel _ hstop hfuel
    cases fuel with
    | zero => omega
    | succ f =>
      unfold ncLoop
      have hq : ("24E00" ++ pad2 (2 * s) ++ "*") = searchString s := rfl
      rw [hq]
      rw [show s + 0 = s from rfl] at hstop
      simp only [hstop, if_pos]
      rw [show List.range 1 = [0] from rfl]
      simp
  | succ k ih =>
    intro s fuel hfirst hstop hfuel
    cases fuel with
    | zero => omega
    | succ f =>
      unfold ncLoop
      have h0 : pyContains (bannerOf (searchString s)) noCasesMsg = false := by
        have := hfirst 0 (by simp)
        simpa using this
      have hq : ("24E00" ++ pad2 (2 * s) ++ "*") = searchString s := rfl
      rw [hq]
      simp only [h0, Bool.false_eq_true, if_false]
      have h2s : 2 * s + 2 = 2 * (s + 1) := by ring
      rw [h2s, ih (s + 1) f ?_ ?_ (by omega)]
      · have hmap : List.map (fun j => searchString (s + 1 + j)) (List.range (k + 1))
            = List.map ((fun j => searchString (s + j)) ∘ (· + 1)) (List.range (k + 1)) := by
          apply List.map_congr_left
          intro j _
          simp only [Function.comp]
          congr 1
          omega
        conv_rhs => rw [List.range_succ_eq_map, List.map_cons, List.map_map]
        rw [hmap]
        rfl
      · intro j hj
        have := hfirst (j + 1) (by simp at hj ⊢; omega)
        have harr : s + (j + 1) = s + 1 + j := by omega
        rwa [harr] at this
      · have harr : s + (k + 1) = s + 1 + k := by omega
        rwa [harr] at hstop

/-- Claim C10: the NC run searches only even two-digit record prefixes —
the `k`-th iteration queries `"24E00"` followed by `2*k` zero-padded to two
digits followed by `"*"` — and the loop ends at the first query whose
results banner contains `"No cases match your search"`. -/
theorem claim_C10_even_search_sequence (bannerOf : String → String)
    (recsOf : String → List CaseRecord) (k fuel : Nat)
    (hfirst : ∀ j ∈ List.range k, pyContains (bannerOf (searchString j)) noCasesMsg = false)
    (hstop : pyContains (bannerOf (searchString k)) noCasesMsg = true)
    (hfuel : k < fuel) :
    (ncLoop bannerOf recsOf fuel 0).1 = (List.range (k + 1)).map searchString
    ∧ ∀ q ∈ (ncLoop bannerOf recsOf fuel 0).1, ∃ m, q = "24E00" ++ pad2 (2 * m) ++ "*" := by
  have h := ncLoop_queries bannerOf recsOf k 0 fuel
    (by intro j hj; simpa using hfirst j hj) (by simpa using hstop) hfuel
  rw [show (2 : Nat) * 0 = 0 from rfl] at h
  have heq : (ncLoop bannerOf recsOf fuel 0).1 = (List.range (k + 1)).map searchString := by
    rw [h]
    apply List.map_congr_left
    intro j _
    simp
  refine ⟨heq, ?_⟩
  intro q hq
  rw [heq] at hq
  obtain ⟨m, _, rfl⟩ := List.mem_map.mp hq
  exact ⟨m, rfl⟩

/-- Claim C10 witness: with a banner oracle that reports no matches on the
query `"24E0004*"`, the loop issues exactly the three even-prefix queries. -/
theorem claim_C10_witness :
    (ncLoop (fun q => if q = "24E0004*" then noCasesMsg else "ok") (fun _ => []) 5 0).1
      = ["24E0000*", "24E0002*", "24E0004*"] := by
  have h := claim_C10_even_search_sequence
    (fun q => if q = "24E0004*" then noCasesMsg else "ok") (fun _ => []) 2 5
    (by decide) (by decide) (by decide)
  exact h.1.trans (by decide)

/-- Unfolding one party through the attorney fold of `get_attorney_info`:
the collected list only grows, restarting the running length at each strict
running maximum. -/
theorem gai_foldl_eq (ps : List (List CasePartyAttorney)) :
    ∀ (m : Nat) (acc : List AttorneyInfo),
      (ps.foldl gaiStep (m, acc)).2
        = dedupInto acc (((runningMaxParties m ps).map (List.map attorneyEntry)).flatten) := by
  induction ps with
  | nil => intro m acc; rfl
  | cons p ps ih =>
    intro m acc
    by_cases hlen : p.length > m
    · have hne : p.isEmpty = false := by
        cases p with
        | nil => simp at hlen
        | cons x xs => rfl
      have hstep : gaiStep (m, acc) p
          = (p.length, dedupInto acc (p.map attorneyEntry)) := by
        unfold gaiStep
        simp only [hne, Bool.false_eq_true, if_false, hlen, if_pos]
        unfold dedupInto
        rw [List.foldl_map]
      simp only [List.foldl_cons, hstep]
      rw [ih p.length (dedupInto acc (p.map attorneyEntry))]
      simp only [runningMaxParties, hlen, if_pos, List.map_cons, List.flatten_cons]
      unfold dedupInto
      rw [List.foldl_append]
    · have hstep : gaiStep (m, acc) p = (m, acc) := by
        unfold gaiStep
        by_cases hemp : p.isEmpty <;> simp [hemp, hlen]
      simp only [List.foldl_cons, hstep]
      rw [ih m acc]
      simp only [runningMaxParties, hlen, if_neg, ite_false]

/-- Members of a deduplicated accumulation come from the accumulator or the
appended list. -/
theorem mem_dedupInto (l : List AttorneyInfo) :
    ∀ (acc : List AttorneyInfo) (e : AttorneyInfo),
      e ∈ dedupInto acc l → e ∈ acc ∨ e ∈ l := by
  induction l with
  | nil => intro acc e he; exact Or.inl he
  | cons x xs ih =>
    intro acc e he
    rcases ih (dedupStep acc x) e he with h | h
    · unfold dedupStep at h
      by_cases hcond : acc.any (fun k => decide (k.name = x.name)) = true
      · rw [if_pos hcond] at h
        exact Or.inl h
      · rw [if_neg hcond] at h
        rcases List.mem_append.mp h with h1 | h1
        · exact Or.inl h1
        · simp at h1
          subst h1
          exact Or.inr (by simp)
    · exact Or.inr (by simp [h])

/-- Claim C1 counterexample: with one single-attorney party followed by a
two-attorney party, `get_attorney_info` keeps the first party's attorney as
well, so the result is not the greatest sub-list alone. -/
theorem claim_C1_counterexample :
    get_attorney_info
        [[⟨some "Attorney A", []⟩],
         [⟨some "Attorney B", []⟩, ⟨some "Attorney C", []⟩]]
      = [⟨some "Attorney A", []⟩, ⟨some "Attorney B", []⟩, ⟨some "Attorney C", []⟩]
    ∧ get_attorney_info
        [[⟨some "Attorney A", []⟩],
         [⟨some "Attorney B", []⟩, ⟨some "Attorney C", []⟩]]
      ≠ [⟨some "Attorney B", []⟩, ⟨some "Attorney C", []⟩] := by
  exact ⟨by decide, by decide⟩

/-- Claim C1 as amended: the attorneys attributed to a case are the
name-deduplicated concatenation of the entries of every party at a strict
running maximum of the attorney count (each party whose
`CasePartyAttorneys` list is longer than all earlier parties' lists), not
of the single greatest party alone; in particular every attributed attorney
comes from some running-maximum party. -/
theorem claim_C1_amended (parties : List (List CasePartyAttorney)) :
    get_attorney_info parties
      = dedupInto [] (((runningMaxParties 0 parties).map (List.map attorneyEntry)).flatten)
    ∧ ∀ e ∈ get_attorney_info parties,
        ∃ p ∈ runningMaxParties 0 parties, ∃ i ∈ p, attorneyEntry i = e := by
  have heq : get_attorney_info parties
      = dedupInto [] (((runningMaxParties 0 parties).map (List.map attorneyEntry)).flatten) := by
    unfold get_attorney_info
    exact gai_foldl_eq parties 0 []
  refine ⟨heq, ?_⟩
  intro e he
  rw [heq] at he
  rcases mem_dedupInto _ [] e he with h | h
  · cases h
  · rcases List.mem_flatten.mp h with ⟨l', hl', hel⟩
    rcases List.mem_map.mp hl' with ⟨p, hp, rfl⟩
    rcases List.mem_map.mp hel with ⟨i, hi, rfl⟩
    exact ⟨p, hp, i, hi, rfl⟩

/-- Claim C1 witness: the membership consequence at the concrete
two-party input. -/
theorem claim_C1_witness :
    ∃ p ∈ runningMaxParties 0
        [[⟨some "Attorney A", []⟩],
         [⟨some "Attorney B", []⟩, ⟨some "Attorney C", []⟩]],
      ∃ i ∈ p, attorneyEntry i = ⟨some "Attorney A", []⟩ :=
  (claim_C1_amended
      [[⟨some "Attorney A", []⟩],
       [⟨some "Attorney B", []⟩, ⟨some "Attorney C", []⟩]]).2
    ⟨some "Attorney A", []⟩ (by decide)

/-- A composed location block is never the empty string (it contains the
embedded `", "`). -/
theorem locBlock_ne_empty (c s p : String) :
    ((c ++ ", " ++ (s ++ " " ++ p)) != "") = true := by
  rw [bne_iff_ne]
  intro h
  have hlen := congrArg String.length h
  simp only [String.length_append] at hlen
  rw [show (", " : String).length = 2 from rfl,
      show ("" : String).length = 0 from rfl] at hlen
  omega

/-- Claim C5 counterexample: an address with a non-empty state and postal
code but an empty city keeps the empty city inside the location block, so
the formatted string contains a separator adjacent to an empty component
instead of skipping it. -/
theorem claim_C5_counterexample :
    formatAddress ⟨"123 Main St", "", "", "", "", "NC", "27601"⟩
      = "123 Main St, , NC 27601"
    ∧ formatAddress ⟨"123 Main St", "", "", "", "", "NC", "27601"⟩
      ≠ "123 Main St, NC 27601" := by
  exact ⟨by decide, by decide⟩

/-- Claim C5 as amended: the four address lines are individually skipped
when empty, and the whole location block is skipped only when city, state
and postal code are all empty; otherwise the block is the verbatim
`city ++ ", " ++ state ++ " " ++ postal` with no skipping of empty
sub-components inside it. -/
theorem claim_C5_amended (a : PyAddress) :
    formatAddress a = formatAddressSpec a := by
  unfold formatAddress formatAddressSpec
  dsimp only
  by_cases hall : a.city = "" ∧ a.state = "" ∧ a.postalCode = ""
  · obtain ⟨hc, hs, hp⟩ := hall
    simp only [hc, hs, hp]
    rw [if_neg (by decide), if_pos ⟨trivial, trivial, trivial⟩]
    rw [show ([a.addressLine1, a.addressLine2, a.addressLine3, a.addressLine4, ("" : String)])
        = [a.addressLine1, a.addressLine2, a.addressLine3, a.addressLine4] ++ [""] from rfl]
    rw [List.filter_append]
    simp
  · have hcond : (([a.city, a.state, a.postalCode].filter (fun p => p != "")) != []) = true := by
      rw [bne_iff_ne]
      intro hnil
      have hforall := List.filter_eq_nil_iff.mp hnil
      exact hall ⟨by simpa using hforall a.city (by simp),
        by simpa using hforall a.state (by simp),
        by simpa using hforall a.postalCode (by simp)⟩
    rw [if_pos hcond, if_neg hall]
    rw [show joinSep ", " [a.city, joinSep " " [a.state, a.postalCode]]
        = a.city ++ ", " ++ (a.state ++ " " ++ a.postalCode) from rfl]
    rw [show ([a.addressLine1, a.addressLine2, a.addressLine3, a.addressLine4,
          a.city ++ ", " ++ (a.state ++ " " ++ a.postalCode)])
        = [a.addressLine1, a.addressLine2, a.addressLine3, a.addressLine4]
          ++ [a.city ++ ", " ++ (a.state ++ " " ++ a.postalCode)] from rfl]
    rw [List.filter_append]
    rw [show List.filter (fun p => p != "")
          [a.city ++ ", " ++ (a.state ++ " " ++ a.postalCode)]
        = [a.city ++ ", " ++ (a.state ++ " " ++ a.postalCode)] from by
      simp [locBlock_ne_empty a.city a.state a.postalCode]]
    congr 1
    simp [String.append_assoc]

/-- The sanitized file name expression used inside `get_pdf_files`. -/
theorem fname_eq (t : String) :
    pyStrip (pyReplace (pyReplace t "/" "-Or-") " " "_") = eventFileName t := rfl

/-- One unrolling of the event selector. -/
theorem bondEventsToProcess_cons (seen : List String) (ce : CaseEvent)
    (rest : List CaseEvent) :
    bondEventsToProcess seen (ce :: rest)
      = if pyContains ce.typeDesc "Bond" && !ce.documents.isEmpty
            && !seen.contains (eventFileName ce.typeDesc) then
          ce :: bondEventsToProcess (seen ++ [eventFileName ce.typeDesc]) rest
        else bondEventsToProcess seen rest := rfl

/-- The URLs attempted over a parent-link list are the failing prefix plus
the first success, independently of the incoming `pdf_found` value. -/
theorem tryParentLinks_attempts (dl : String → Bool) (doc : CaseDocument)
    (case_no event_name : String) :
    ∀ (links : List ParentLink) (found0 : Bool),
      (tryParentLinks dl doc case_no event_name found0 links).2
        = attemptsSpec dl (links.map (fun link => mkPdfUrl doc case_no link event_name)) := by
  intro links
  induction links with
  | nil => intro f0; rfl
  | cons l ls ih =>
    intro f0
    by_cases hd : dl (mkPdfUrl doc case_no l event_name) = true <;>
      simp [tryParentLinks, attemptsSpec, hd, ih]

/-- Unrolling the event fold of `get_pdf_files`: attempts and recorded file
names accumulate exactly over the events selected by
`bondEventsToProcess`. -/
theorem pdf_foldl_eq (dl : String → Bool) (case_no : String) :
    ∀ (events : List CaseEvent) (st : PdfScanState),
      (events.foldl (pdfStep dl case_no) st).attempts
          = st.attempts
            ++ ((bondEventsToProcess st.filesDownloaded events).map
                  (fun ce => attemptsSpec dl (eventUrls case_no ce))).flatten
      ∧ (events.foldl (pdfStep dl case_no) st).filesDownloaded
          = st.filesDownloaded
            ++ (bondEventsToProcess st.filesDownloaded events).map
                (fun ce => eventFileName ce.typeDesc) := by
  intro events
  induction events with
  | nil =>
    intro st
    exact ⟨(List.append_nil _).symm, (List.append_nil _).symm⟩
  | cons ce rest ih =>
    intro st
    by_cases hbond : pyContains ce.typeDesc "Bond" = true
    · cases hdocs : ce.documents with
      | nil =>
        have hstep : pdfStep dl case_no st ce = st := by
          unfold pdfStep
          rw [hbond, hdocs]
          simp
        have hsel : bondEventsToProcess st.filesDownloaded (ce :: rest)
            = bondEventsToProcess st.filesDownloaded rest := by
          rw [bondEventsToProcess_cons]
          rw [if_neg (by simp [hbond, hdocs])]
        simp only [List.foldl_cons, hstep, hsel]
        exact ih st
      | cons doc docs =>
        by_cases hseen :
            st.filesDownloaded.contains (eventFileName ce.typeDesc) = true
        · have hmem : eventFileName ce.typeDesc ∈ st.filesDownloaded :=
            List.elem_iff.mp hseen
          have hstep : pdfStep dl case_no st ce = st := by
            unfold pdfStep
            rw [hbond, hdocs]
            simp only [fname_eq]
            rw [if_pos trivial, if_pos hseen]
          have hsel : bondEventsToProcess st.filesDownloaded (ce :: rest)
              = bondEventsToProcess st.filesDownloaded rest := by
            rw [bondEventsToProcess_cons]
            rw [if_neg (by simp [hbond, hdocs, hmem])]
          simp only [List.foldl_cons, hstep, hsel]
          exact ih st
        · have hurls : eventUrls case_no ce
              = doc.parentLinks.map
                  (fun link => mkPdfUrl doc case_no link (pyReplace ce.typeDesc "/" "-Or-")) := by
            unfold eventUrls
            rw [hdocs]
          have hstep : pdfStep dl case_no st ce
              = ⟨(tryParentLinks dl doc case_no (pyReplace ce.typeDesc "/" "-Or-")
                    st.found doc.parentLinks).1,
                 st.filesDownloaded ++ [eventFileName ce.typeDesc],
                 st.attempts ++ attemptsSpec dl (eventUrls case_no ce)⟩ := by
            unfold pdfStep
            rw [hbond, hdocs]
            simp only [fname_eq]
            rw [if_pos trivial, if_neg hseen]
            rw [hurls, ← tryParentLinks_attempts dl doc case_no
              (pyReplace ce.typeDesc "/" "-Or-") doc.parentLinks st.found]
          have hmem : eventFileName ce.typeDesc ∉ st.filesDownloaded :=
            fun hm => hseen (List.elem_iff.mpr hm)
          have hsel : bondEventsToProcess st.filesDownloaded (ce :: rest)
              = ce :: bondEventsToProcess
                  (st.filesDownloaded ++ [eventFileName ce.typeDesc]) rest := by
            rw [bondEventsToProcess_cons]
            rw [if_pos (by simp [hbond, hdocs, hmem])]
          simp only [List.foldl_cons, hstep, hsel]
          have hrest := ih ⟨(tryParentLinks dl doc case_no (pyReplace ce.typeDesc "/" "-Or-")
              st.found doc.parentLinks).1,
            st.filesDownloaded ++ [eventFileName ce.typeDesc],
            st.attempts ++ attemptsSpec dl (eventUrls case_no ce)⟩
          refine ⟨?_, ?_⟩
          · rw [hrest.1]
            simp [List.append_assoc]
          · rw [hrest.2]
            simp [List.append_assoc]
    · have hstep : pdfStep dl case_no st ce = st := by
        unfold pdfStep
        rw [if_neg hbond]
      have hsel : bondEventsToProcess st.filesDownloaded (ce :: rest)
          = bondEventsToProcess st.filesDownloaded rest := by
        rw [bondEventsToProcess_cons]
        rw [if_neg (by simp [hbond])]
      simp only [List.foldl_cons, hstep, hsel]
      exact ih st

set_option maxRecDepth 4000 in
/-- Claim C4 counterexample: two distinct Bond events in one payload both
get download attempts and both file names are recorded, so PDF discovery is
not restricted to the first Bond event and its document. -/
theorem claim_C4_counterexample :
    (get_pdf_files (fun _ => true) "24E010001"
        [⟨"Bond Filed", [⟨"d1", "t1", "T1", "N1", [⟨"n1", "p1"⟩]⟩]⟩,
         ⟨"Bond Set", [⟨"d2", "t2", "T2", "N2", [⟨"n2", "p2"⟩]⟩]⟩]).filesDownloaded
      = ["Bond_Filed", "Bond_Set"]
    ∧ (get_pdf_files (fun _ => true) "24E010001"
        [⟨"Bond Filed", [⟨"d1", "t1", "T1", "N1", [⟨"n1", "p1"⟩]⟩]⟩,
         ⟨"Bond Set", [⟨"d2", "t2", "T2", "N2", [⟨"n2", "p2"⟩]⟩]⟩]).attempts
      = [mkPdfUrl ⟨"d1", "t1", "T1", "N1", [⟨"n1", "p1"⟩]⟩ "24E010001" ⟨"n1", "p1"⟩ "Bond Filed",
         mkPdfUrl ⟨"d2", "t2", "T2", "N2", [⟨"n2", "p2"⟩]⟩ "24E010001" ⟨"n2", "p2"⟩ "Bond Set"]
    ∧ (get_pdf_files (fun _ => true) "24E010001"
        [⟨"Bond Filed", [⟨"d1", "t1", "T1", "N1", [⟨"n1", "p1"⟩]⟩]⟩,
         ⟨"Bond Set", [⟨"d2", "t2", "T2", "N2", [⟨"n2", "p2"⟩]⟩]⟩]).filesDownloaded
      ≠ ["Bond_Filed"] := by
  exact ⟨by decide, rfl, by decide⟩

/-- Claim C4 as amended: `get_pdf_files` processes every event whose type
description contains `"Bond"`, has at least one document, and has a not yet
recorded sanitized file name — not only the first such event; per processed
event only the first document is used, its parent links are attempted in
order and the attempts stop right after the first successful download; a
file name already recorded for the case (recorded as soon as attempts for
it begin, successful or not) is skipped without further attempts. -/
theorem claim_C4_amended (dl : String → Bool) (case_no : String) (events : List CaseEvent) :
    (get_pdf_files dl case_no events).attempts
        = ((bondEventsToProcess [] events).map
            (fun ce => attemptsSpec dl (eventUrls case_no ce))).flatten
    ∧ (get_pdf_files dl case_no events).filesDownloaded
        = (bondEventsToProcess [] events).map (fun ce => eventFileName ce.typeDesc)
    ∧ ∀ (doc : CaseDocument) (cn en : String) (found0 : Bool) (links : List ParentLink),
        (tryParentLinks dl doc cn en found0 links).2
          = attemptsSpec dl (links.map (fun link => mkPdfUrl doc cn link en)) := by
  have h := pdf_foldl_eq dl case_no events ⟨false, [], []⟩
  exact ⟨h.1, h.2,
    fun doc cn en found0 links => tryParentLinks_attempts dl doc cn en links found0⟩

/-- One unrolling of the `scrape_cases` loop. -/
theorem scrapeCases_cons (dl : String → Bool) (c : CaseFetch) (cs : List CaseFetch) :
    scrapeCases dl (c :: cs)
      = match (processCase dl c).result with
        | Except.error e => Except.error e
        | Except.ok none => scrapeCases dl cs
        | Except.ok (some r) => (scrapeCases dl cs).map (fun rs => r :: rs) := rfl

/-- Claim C2 counterexample: in the NC per-case loop, an error raised while
fetching the second case's type aborts the whole loop — the third case,
which on its own would have produced a record, is never processed. -/
theorem claim_C2_counterexample :
    scrapeCases (fun _ => false)
        [⟨"24E000101", Except.ok (some "Estate"), Except.ok [], Except.ok []⟩,
         ⟨"24E000102", Except.error ⟨false⟩, Except.ok [], Except.ok []⟩,
         ⟨"24E000103", Except.ok (some "Estate"), Except.ok [], Except.ok []⟩]
      = Except.error ⟨false⟩
    ∧ (processCase (fun _ => false)
        ⟨"24E000103", Except.ok (some "Estate"), Except.ok [], Except.ok []⟩).result
      = Except.ok (some ⟨"24E000103", some "Estate", [], "Not Found"⟩) := by
  exact ⟨by decide, by decide⟩

/-- Claim C2 as amended: the NY attorney loop catches any per-item error
and continues, and the NY court per-link loop skips a link whose click or
field extraction fails; but the NC per-case loop has no per-item guard — a
propagating error in one case's processing aborts the whole loop; only
`requests.RequestException`s inside the nested attorney/PDF lookups are
degraded (to an empty attorney list / no PDF) rather than propagated. -/
theorem claim_C2_amended :
    (∀ (process : String → Except PyErr AttorneyDetails) (l1 l2 : List String)
        (bad : String) (e : PyErr), process bad = Except.error e →
        nyAttorneyLoop process (l1 ++ bad :: l2)
          = nyAttorneyLoop process l1 ++ nyAttorneyLoop process l2)
    ∧ (∀ (links1 links2 : List (Except PyErr Unit × Except PyErr FilingRecord))
        (bad : Except PyErr Unit × Except PyErr FilingRecord),
        processFileLink bad.1 bad.2 = none →
        nyCourtLinkLoop (links1 ++ bad :: links2)
          = nyCourtLinkLoop links1 ++ nyCourtLinkLoop links2)
    ∧ (∀ (dl : String → Bool) (pre post : List CaseFetch) (c : CaseFetch)
        (rs : List CaseRecord) (e : PyErr),
        scrapeCases dl pre = Except.ok rs →
        (processCase dl c).result = Except.error e →
        scrapeCases dl (pre ++ c :: post) = Except.error e)
    ∧ (∀ (dl : String → Bool) (c : CaseFetch) (t : Option String)
        (evs : List CaseEvent),
        c.typeResp = Except.ok t → t ≠ some smallEstateDesc →
        c.partiesResp = Except.error ⟨true⟩ →
        c.eventsResp = Except.ok evs →
        (processCase dl c).result
          = Except.ok (some ⟨c.caseNo, t, [],
              if (get_pdf_files dl c.caseNo evs).found then "Found" else "Not Found"⟩)) := by
  refine ⟨?_, ?_, ?_, ?_⟩
  · intro process l1 l2 bad e h
    unfold nyAttorneyLoop
    rw [List.filterMap_append]
    rw [List.filterMap_cons]
    rw [h]
    rfl
  · intro links1 links2 bad h
    unfold nyCourtLinkLoop
    rw [List.filterMap_append]
    rw [List.filterMap_cons]
    rw [h]
  · intro dl pre post c rs e h1 h2
    induction pre generalizing rs with
    | nil =>
      rw [List.nil_append, scrapeCases_cons, h2]
    | cons a as ih =>
      rw [scrapeCases_cons] at h1
      rw [List.cons_append, scrapeCases_cons]
      cases hres : (processCase dl a).result with
      | error e' =>
        rw [hres] at h1
        exact absurd h1 (by simp)
      | ok o =>
        rw [hres] at h1
        cases o with
        | none => exact ih rs h1
        | some r =>
          cases hcs : scrapeCases dl as with
          | error e' =>
            rw [hcs] at h1
            exact absurd h1 (by simp [Except.map])
          | ok rs' =>
            rw [ih rs' hcs]
            rfl
  · intro dl c t evs ht htne hp hev
    unfold processCase
    simp only [ht, hp, hev]
    rw [if_neg htne]
    rfl

/-- Claim C2 witness: the NC abort consequence at a concrete three-case
input whose second case's type lookup raises. -/
theorem claim_C2_witness :
    scrapeCases (fun _ => false)
        ([⟨"24E000201", Except.ok (some "Estate"), Except.ok [], Except.ok []⟩]
          ++ ⟨"24E000202", Except.error ⟨false⟩, Except.ok [], Except.ok []⟩
            :: [⟨"24E000203", Except.ok (some "Estate"), Except.ok [], Except.ok []⟩])
      = Except.error ⟨false⟩ :=
  claim_C2_amended.2.2.1 (fun _ => false)
    [⟨"24E000201", Except.ok (some "Estate"), Except.ok [], Except.ok []⟩]
    [⟨"24E000203", Except.ok (some "Estate"), Except.ok [], Except.ok []⟩]
    ⟨"24E000202", Except.error ⟨false⟩, Except.ok [], Except.ok []⟩
    [⟨"24E000201", some "Estate", [], "Not Found"⟩] ⟨false⟩
    (by decide) (by decide)

/-- Claim C3 counterexample: a NY attorney run with two successfully
processed attorneys performs two CSV writes, one immediately after each
record, not a single write after the loop. -/
theorem claim_C3_counterexample :
    nyAttorneyCsvWrites (fun a => Except.ok ⟨a, "", "", ""⟩) ["Alice Adams", "Bob Brown"]
      = [[⟨"Alice Adams", "", "", ""⟩], [⟨"Bob Brown", "", "", ""⟩]]
    ∧ (nyAttorneyCsvWrites (fun a => Except.ok ⟨a, "", "", ""⟩)
        ["Alice Adams", "Bob Brown"]).length ≠ 1 := by
  exact ⟨by decide, by decide⟩

/-- Claim C3 as amended: the NY attorney run writes to its CSV once per
successfully processed record (each write holding exactly that one record);
the NY court run accumulates a whole (proceeding type, county) scope in
memory and writes it at most once, after the scope's month loop, exactly
when non-empty; the NC run writes exactly once at the very end with the
entire accumulated batch. -/
theorem claim_C3_amended (process : String → Except PyErr AttorneyDetails)
    (attorneys : List String) (monthRecords : List (List FilingRecord))
    (bannerOf : String → String) (recsOf : String → List CaseRecord) (fuel : Nat) :
    nyAttorneyCsvWrites process attorneys
        = (nyAttorneySuccesses process attorneys).map (fun d => [d])
    ∧ (∀ w ∈ nyAttorneyCsvWrites process attorneys, w.length = 1)
    ∧ (nyAttorneyCsvWrites process attorneys).length
        = (nyAttorneySuccesses process attorneys).length
    ∧ (nyCourtScopeWrites monthRecords).length ≤ 1
    ∧ (monthRecords.flatten ≠ [] → nyCourtScopeWrites monthRecords = [monthRecords.flatten])
    ∧ (ncRun bannerOf recsOf fuel).2.2 = [(ncRun bannerOf recsOf fuel).2.1] := by
  have hmain : nyAttorneyCsvWrites process attorneys
      = (nyAttorneySuccesses process attorneys).map (fun d => [d]) := by
    induction attorneys with
    | nil => rfl
    | cons a as ih =>
      unfold nyAttorneyCsvWrites nyAttorneySuccesses at *
      rw [List.filterMap_cons, List.filterMap_cons]
      cases h : process a with
      | error e =>
        simp [h, Except.toOption]
        simp [Except.toOption] at ih
        exact ih
      | ok d =>
        simp [h, Except.toOption]
        simp [Except.toOption] at ih
        exact ih
  refine ⟨hmain, ?_, ?_, ?_, ?_, rfl⟩
  · intro w hw
    rw [hmain] at hw
    obtain ⟨d, _, rfl⟩ := List.mem_map.mp hw
    rfl
  · rw [hmain, List.length_map]
  · unfold nyCourtScopeWrites
    by_cases h : monthRecords.flatten = [] <;> simp [h]
  · intro h
    unfold nyCourtScopeWrites
    rw [if_neg (by simpa using h)]

/-- Claim C3 witness: the NY court single-write consequence at a concrete
one-month, one-record scope. -/
theorem claim_C3_witness :
    nyCourtScopeWrites [[⟨some "Kings", some "2024-1", none, none, none⟩]]
      = [[⟨some "Kings", some "2024-1", none, none, none⟩]] :=
  (claim_C3_amended (fun _ => Except.error ⟨false⟩) []
      [[⟨some "Kings", some "2024-1", none, none, none⟩]]
      (fun _ => "") (fun _ => []) 0).2.2.2.2.1 (by decide)

/-- Claim C4 witness: the attempts characterization at the empty events
payload. -/
theorem claim_C4_witness :
    (get_pdf_files (fun _ => false) "24E010002" []).attempts = [] :=
  (claim_C4_amended (fun _ => false) "24E010002" []).1

/-- Claim C5 witness: the formatting characterization at a concrete fully
populated address. -/
theorem claim_C5_witness :
    formatAddress ⟨"1 Elm St", "", "", "", "Raleigh", "NC", "27601"⟩
      = formatAddressSpec ⟨"1 Elm St", "", "", "", "Raleigh", "NC", "27601"⟩ :=
  claim_C5_amended ⟨"1 Elm St", "", "", "", "Raleigh", "NC", "27601"⟩
